import Mathlib

/-!
Verification of the local image enhancement engine of the image-restore-lab
repository (component file src/components/ImageEnhancer.tsx, early revision).
The engine consists of a MIME gate (handleFile), a conditional resizer
(resizeImageIfNeeded), a canvas pixel transform (enhanceImageCanvas) and the
orchestration (enhanceImage).  Pixel arithmetic in the source runs in IEEE-754
double precision and results are stored into a Uint8ClampedArray; both are
modelled exactly below with fixed-point naturals scaled by 2 ^ 52.
-/

namespace ImageRestoreLab

/-- Fixed-point scaling factor: a nonnegative binary64 value v below 2 ^ 11 that
is exactly representable is encoded as the natural number v * 2 ^ 52. -/
def scale : Nat := 2 ^ 52

/-- The binary64 double nearest to the literal 1.1, times 2 ^ 52.  The source
multiplies each channel by the literal 1.1, which is not exactly representable;
the stored constant is 1.1 + 1 / (5 * 2 ^ 51). -/
def d11 : Nat := 4953959590107546

/-- Fuel-driven base-2 logarithm on naturals, kernel-reducible.  With fuel at
least n it returns the position of the leading binary digit of n. -/
def log2Aux : Nat → Nat → Nat
  | 0, _ => 0
  | fuel + 1, n => if n < 2 then 0 else log2Aux fuel (n / 2) + 1

/-- Floor of the base-2 logarithm (0 at 0), computable by the kernel. -/
def natLog2 (n : Nat) : Nat := log2Aux n n

/-- Round the natural v to the nearest multiple of 2 ^ e, ties to the even
multiple.  This is the mantissa rounding step of binary64 arithmetic. -/
def roundPow2 (v e : Nat) : Nat :=
  let q := v / 2 ^ e
  let r := v % 2 ^ e
  let half := 2 ^ (e - 1)
  if r < half then q * 2 ^ e
  else if half < r then (q + 1) * 2 ^ e
  else if q % 2 = 0 then q * 2 ^ e else (q + 1) * 2 ^ e

/-- Round an exact nonnegative fixed-point value (numerator over 2 ^ 52) to the
nearest binary64 double, ties to even.  Values below 2 ^ 53 scaled units lie in
binades of granularity at most one unit and are already exact. -/
def roundDouble (v : Nat) : Nat :=
  if v < 2 ^ 53 then v else roundPow2 v (natLog2 v - 52)

/-- ECMAScript ToUint8Clamp on a nonnegative fixed-point double value: clamp to
255 from above and round to the nearest integer, ties to even.  The lower
clamp of the specification is invisible on naturals; see toUint8ClampFull. -/
def toUint8Clamp (v : Nat) : Nat :=
  if 255 * scale ≤ v then 255 else roundPow2 v 52 / scale

/-- ECMAScript ToUint8Clamp with its lower clamp explicit, on an integer
fixed-point value. -/
def toUint8ClampFull (v : Int) : Nat :=
  if v ≤ 0 then 0
  else if (255 * scale : Int) ≤ v then 255
  else roundPow2 v.toNat 52 / scale

/-- Double-precision product of a channel value with the literal 1.1, from the
source expression data[i] * 1.1.  The exact product c * d11 scaled units is
rounded to the nearest double. -/
def mulStep (c : Nat) : Nat := roundDouble (c * d11)

/-- Double-precision sum of the product with the literal 10, from the source
expression data[i] * 1.1 + 10. -/
def addStep (c : Nat) : Nat := roundDouble (mulStep c + 10 * scale)

/-- Upper saturation Math.min(255, data[i] * 1.1 + 10) of the source; exact on
doubles, no rounding. -/
def minStep (c : Nat) : Nat := min (255 * scale) (addStep c)

/-- Per-channel transform of the source loop body
data[i] = Math.min(255, data[i] * 1.1 + 10): double-precision evaluation
followed by the Uint8ClampedArray store. -/
def enhanceChannel (c : Nat) : Nat := toUint8Clamp (minStep c)

/-- Variant of the per-channel transform whose store applies the full
two-sided ToUint8Clamp, written with integer values so that the lower clamp at
0 is a genuine branch. -/
def enhanceChannelTwoSided (c : Nat) : Nat := toUint8ClampFull (minStep c : Int)

/-- Decoded pixel-addressable buffer: integer dimensions and a flat row-major
RGBA sample list, one natural per 8-bit sample. -/
structure RasterSurface where
  width : Nat
  height : Nat
  data : List Nat

/-- Encodings produced by the source: canvas.toDataURL with image/png or
image/jpeg. -/
inductive ImageFormat
  | png
  | jpeg

/-- Encoded image resource: the format and quality passed to toDataURL
together with the raster it serializes. -/
structure EncodedImage where
  format : ImageFormat
  quality : Rat
  surface : RasterSurface

/-- Per-pixel loop of enhanceImageCanvas (source lines 111-117): step through
the flat RGBA data four samples at a time, apply the channel transform to the
red, green and blue samples and leave the alpha sample unchanged.  The ragged
tail cases mirror the fact that the loop writes only in-bounds indices. -/
def enhanceData : List Nat → List Nat
  | r :: g :: b :: a :: rest =>
      enhanceChannel r :: enhanceChannel g :: enhanceChannel b :: a ::
        enhanceData rest
  | [r, g, b] => [enhanceChannel r, enhanceChannel g, enhanceChannel b]
  | [r, g] => [enhanceChannel r, enhanceChannel g]
  | [r] => [enhanceChannel r]
  | [] => []

/-- Math.round (n / d) for a nonnegative numerator and positive denominator:
round half away from zero, which on nonnegative arguments is round half up. -/
def jsRound (n d : Nat) : Nat := (2 * n + d) / (2 * d)

/-- Dimension computation of resizeImageIfNeeded (source lines 68-79): when a
dimension exceeds maxSize, scale the larger dimension to exactly maxSize and
round the other proportionally. -/
def resizeDims (width height maxSize : Nat) : Nat × Nat :=
  if width > maxSize ∨ height > maxSize then
    if width > height then (maxSize, jsRound (height * maxSize) width)
    else (jsRound (width * maxSize) height, maxSize)
  else (width, height)

/-- Body of resizeImageIfNeeded (source lines 63-87): draw the image onto a
canvas at the computed dimensions and re-encode with
canvas.toDataURL(image/jpeg, 0.9).  The resampling filter of drawImage is
platform-defined and is taken as a parameter. -/
def resizeImageIfNeeded (resample : RasterSurface → Nat → Nat → List Nat)
    (img : RasterSurface) (maxSize : Nat) : EncodedImage :=
  let dims := resizeDims img.width img.height maxSize
  ⟨ImageFormat.jpeg, 9 / 10, ⟨dims.1, dims.2, resample img dims.1 dims.2⟩⟩

/-- Body of enhanceImageCanvas (source lines 90-122): set the canvas to twice
the input dimensions, draw the image scaled (platform resampling, parameter),
run the per-pixel loop on the resulting image data and re-encode with
canvas.toDataURL(image/png, 1.0). -/
def enhanceImageCanvas (resample : RasterSurface → Nat → Nat → List Nat)
    (img : RasterSurface) : EncodedImage :=
  ⟨ImageFormat.png, 1,
    ⟨img.width * 2, img.height * 2,
      enhanceData (resample img (img.width * 2) (img.height * 2))⟩⟩

/-- Surface handed to the pixel transform by enhanceImage (source lines
147-163): the original decoded image unless a dimension exceeds 1024, in which
case the jpeg re-encoded resize output is decoded again (platform jpeg
decoding, parameter). -/
def processedSurface (resample : RasterSurface → Nat → Nat → List Nat)
    (decodeJpeg : EncodedImage → RasterSurface) (img : RasterSurface) :
    RasterSurface :=
  if img.width > 1024 ∨ img.height > 1024 then
    decodeJpeg (resizeImageIfNeeded resample img 1024)
  else img

/-- Orchestration of enhanceImage after a successful decode (source lines
147-168): conditional resize, then the canvas transform. -/
def enhanceImage (resample : RasterSurface → Nat → Nat → List Nat)
    (decodeJpeg : EncodedImage → RasterSurface) (img : RasterSurface) :
    EncodedImage :=
  enhanceImageCanvas resample (processedSurface resample decodeJpeg img)

/-- Error kinds of the pipeline. -/
inductive EnhanceError
  | invalidInput
  | decodeError

/-- MIME gate of handleFile (source lines 44-52): a file whose type does not
start with image/ is rejected before any read or decode is attempted.  MIME
types are modelled as character lists. -/
def handleFile (fileType : List Char) (fileData : List Char) :
    Except EnhanceError (List Char) :=
  if ("image/".toList).isPrefixOf fileType then Except.ok fileData
  else Except.error EnhanceError.invalidInput

/-- Full run of one request: MIME gate, decode of the uploaded resource (the
load signal may report failure, yielding none), then the enhancement
pipeline.  On either failure no raster is produced and no later stage runs. -/
def runEnhance (decode : List Char → Option RasterSurface)
    (resample : RasterSurface → Nat → Nat → List Nat)
    (decodeJpeg : EncodedImage → RasterSurface)
    (fileType fileData : List Char) : Except EnhanceError EncodedImage :=
  match handleFile fileType fileData with
  | Except.error e => Except.error e
  | Except.ok res =>
      match decode res with
      | none => Except.error EnhanceError.decodeError
      | some img => Except.ok (enhanceImage resample decodeJpeg img)

/-- Uniform rounding modes a specification may choose from when it writes
round(x): the four half-way tie-breaking rules and the two directed modes. -/
inductive RoundMode
  | halfUp
  | halfDown
  | halfEven
  | halfOdd
  | down
  | up

/-- Apply a rounding mode to the exact rational n / d, for a nonnegative
numerator and positive denominator. -/
def applyMode (m : RoundMode) (n d : Nat) : Nat :=
  match m with
  | RoundMode.down => n / d
  | RoundMode.up => (n + d - 1) / d
  | RoundMode.halfUp => (2 * n + d) / (2 * d)
  | RoundMode.halfDown => if d < 2 * (n % d) then n / d + 1 else n / d
  | RoundMode.halfEven =>
      if 2 * (n % d) < d then n / d
      else if d < 2 * (n % d) then n / d + 1
      else if (n / d) % 2 = 0 then n / d else n / d + 1
  | RoundMode.halfOdd =>
      if 2 * (n % d) < d then n / d
      else if d < 2 * (n % d) then n / d + 1
      else if (n / d) % 2 = 0 then n / d + 1 else n / d

/-- Channel value predicted by the claimed formula
clamp(round(c * 1.1) + 10, 0, 255) under a given rounding mode, with the
multiplication read exactly as 11 * c / 10. -/
def claimedChannel (m : RoundMode) (c : Nat) : Nat :=
  min 255 (applyMode m (11 * c) 10 + 10)

/-- The per-pixel loop preserves the length of the sample buffer. -/
theorem enhanceData_length (l : List Nat) :
    (enhanceData l).length = l.length := by
  induction l using enhanceData.induct <;> simp [enhanceData, *]

/-- Sample-level characterization of the per-pixel loop: alpha positions are
untouched and the remaining positions go through the channel transform. -/
theorem enhanceData_getElem (l : List Nat) (i : Nat) :
    (enhanceData l)[i]? =
      if i % 4 = 3 then l[i]? else (l[i]?).map enhanceChannel := by
  induction l using enhanceData.induct generalizing i with
  | case1 r g b a rest ih =>
      match i with
      | 0 => simp [enhanceData]
      | 1 => simp [enhanceData]
      | 2 => simp [enhanceData]
      | 3 => simp [enhanceData]
      | j + 4 =>
          have h4 : (j + 4) % 4 = j % 4 := Nat.add_mod_right j 4
          simp only [enhanceData, List.getElem?_cons_succ, h4]
          exact ih j
  | case2 r g b =>
      match i with
      | 0 => simp [enhanceData]
      | 1 => simp [enhanceData]
      | 2 => simp [enhanceData]
      | j + 3 => simp [enhanceData]
  | case3 r g =>
      match i with
      | 0 => simp [enhanceData]
      | 1 => simp [enhanceData]
      | j + 2 => simp [enhanceData]
  | case4 r =>
      match i with
      | 0 => simp [enhanceData]
      | j + 1 => simp [enhanceData]
  | case5 => simp [enhanceData]

/-- When neither dimension exceeds 1024 the resize branch is not taken. -/
theorem processedSurface_small (resample : RasterSurface → Nat → Nat → List Nat)
    (decodeJpeg : EncodedImage → RasterSurface) (img : RasterSurface)
    (hmax : max img.width img.height ≤ 1024) :
    processedSurface resample decodeJpeg img = img := by
  have hcond : ¬ (img.width > 1024 ∨ img.height > 1024) := by
    rw [Nat.max_le] at hmax
    omega
  simp [processedSurface, hcond]

/-- C1: for every valid raster input whose larger dimension is at most 1024
the pipeline output has dimensions exactly (2 * width, 2 * height) and the
expected sample count, and in general the pixel transform doubles each
dimension of its input surface. -/
theorem pipeline_doubles_dimensions (resample : RasterSurface → Nat → Nat → List Nat)
    (decodeJpeg : EncodedImage → RasterSurface) (img : RasterSurface)
    (hvalid : img.data.length = img.width * img.height * 4)
    (hres : ∀ s w h, (resample s w h).length = w * h * 4)
    (hmax : max img.width img.height ≤ 1024) :
    (enhanceImage resample decodeJpeg img).surface.width = 2 * img.width ∧
    (enhanceImage resample decodeJpeg img).surface.height = 2 * img.height ∧
    (enhanceImage resample decodeJpeg img).surface.data.length =
      2 * img.width * (2 * img.height) * 4 ∧
    ∀ s, (enhanceImageCanvas resample s).surface.width = 2 * s.width ∧
      (enhanceImageCanvas resample s).surface.height = 2 * s.height := by
  rw [enhanceImage, processedSurface_small resample decodeJpeg img hmax]
  refine ⟨by simp [enhanceImageCanvas, Nat.mul_comm], by simp [enhanceImageCanvas, Nat.mul_comm], ?_, ?_⟩
  · simp only [enhanceImageCanvas]
    rw [enhanceData_length, hres]
    ring
  · intro s
    exact ⟨by simp [enhanceImageCanvas, Nat.mul_comm], by simp [enhanceImageCanvas, Nat.mul_comm]⟩

/-- Witness for C1 at a concrete 4 by 3 surface. -/
theorem pipeline_doubles_dimensions_witness :
    (enhanceImage (fun _ w h => List.replicate (w * h * 4) 0) (fun e => e.surface)
        ⟨4, 3, List.replicate 48 0⟩).surface.width = 2 * 4 ∧
    (enhanceImage (fun _ w h => List.replicate (w * h * 4) 0) (fun e => e.surface)
        ⟨4, 3, List.replicate 48 0⟩).surface.height = 2 * 3 ∧
    (enhanceImage (fun _ w h => List.replicate (w * h * 4) 0) (fun e => e.surface)
        ⟨4, 3, List.replicate 48 0⟩).surface.data.length = 2 * 4 * (2 * 3) * 4 ∧
    ∀ s, (enhanceImageCanvas (fun _ w h => List.replicate (w * h * 4) 0) s).surface.width =
        2 * s.width ∧
      (enhanceImageCanvas (fun _ w h => List.replicate (w * h * 4) 0) s).surface.height =
        2 * s.height :=
  pipeline_doubles_dimensions (fun _ w h => List.replicate (w * h * 4) 0)
    (fun e => e.surface) ⟨4, 3, List.replicate 48 0⟩ (by simp)
    (fun s w h => by simp) (by decide)

/-- C3: when the larger dimension is at most 1024 the resize stage passes the
original decoded surface through to the pixel transform unchanged: the
dimension computation is the identity and no resample or jpeg re-encode enters
the pipeline. -/
theorem resizer_small_input_unchanged (resample : RasterSurface → Nat → Nat → List Nat)
    (decodeJpeg : EncodedImage → RasterSurface) (img : RasterSurface)
    (hmax : max img.width img.height ≤ 1024) :
    processedSurface resample decodeJpeg img = img ∧
    resizeDims img.width img.height 1024 = (img.width, img.height) ∧
    enhanceImage resample decodeJpeg img = enhanceImageCanvas resample img := by
  have hid := processedSurface_small resample decodeJpeg img hmax
  refine ⟨hid, ?_, by rw [enhanceImage, hid]⟩
  have hcond : ¬ (img.width > 1024 ∨ img.height > 1024) := by
    rw [Nat.max_le] at hmax
    omega
  simp [resizeDims, hcond]

/-- Witness for C3 at a concrete 2 by 2 surface. -/
theorem resizer_small_input_unchanged_witness :
    processedSurface (fun _ _ _ => []) (fun e => e.surface) ⟨2, 2, List.replicate 16 0⟩ =
      ⟨2, 2, List.replicate 16 0⟩ ∧
    resizeDims 2 2 1024 = (2, 2) ∧
    enhanceImage (fun _ _ _ => []) (fun e => e.surface) ⟨2, 2, List.replicate 16 0⟩ =
      enhanceImageCanvas (fun _ _ _ => []) ⟨2, 2, List.replicate 16 0⟩ :=
  resizer_small_input_unchanged (fun _ _ _ => []) (fun e => e.surface)
    ⟨2, 2, List.replicate 16 0⟩ (by decide)

/-- C6: every alpha sample is bit-identical between the resampled intermediate
buffer and the output of the pixel transform, which also preserves the buffer
length; only red, green and blue positions are modified. -/
theorem alpha_unchanged (resample : RasterSurface → Nat → Nat → List Nat)
    (img : RasterSurface) (i : Nat) (hi : i % 4 = 3) :
    (enhanceImageCanvas resample img).surface.data[i]? =
      (resample img (img.width * 2) (img.height * 2))[i]? ∧
    ∀ data : List Nat, (enhanceData data)[i]? = data[i]? ∧
      (enhanceData data).length = data.length := by
  refine ⟨?_, fun data => ⟨?_, enhanceData_length data⟩⟩
  · simp only [enhanceImageCanvas]
    rw [enhanceData_getElem, if_pos hi]
  · rw [enhanceData_getElem, if_pos hi]

/-- Witness for C6 at index 7 of a concrete buffer. -/
theorem alpha_unchanged_witness :
    (enhanceImageCanvas (fun _ _ _ => [1, 2, 3, 4, 5, 6, 7, 8])
        ⟨1, 1, [9, 9, 9, 9]⟩).surface.data[7]? =
      ([1, 2, 3, 4, 5, 6, 7, 8] : List Nat)[7]? ∧
    ∀ data : List Nat, (enhanceData data)[7]? = data[7]? ∧
      (enhanceData data).length = data.length :=
  alpha_unchanged (fun _ _ _ => [1, 2, 3, 4, 5, 6, 7, 8]) ⟨1, 1, [9, 9, 9, 9]⟩ 7 (by decide)

set_option maxRecDepth 100000 in
/-- Every channel value below the saturation point strictly increases under
the channel transform. -/
theorem brighten_aux : ∀ c : Nat, c < 255 → c < enhanceChannel c := by decide

/-- C7: the canvas transform is not idempotent: on a non-empty surface a
second application doubles the dimensions again, so the twice-transformed
surface differs from the once-transformed one; moreover every unsaturated
channel value strictly increases. -/
theorem transform_not_idempotent (resample : RasterSurface → Nat → Nat → List Nat)
    (img : RasterSurface) (hw : 0 < img.width) (hh : 0 < img.height) :
    (enhanceImageCanvas resample (enhanceImageCanvas resample img).surface).surface ≠
      (enhanceImageCanvas resample img).surface ∧
    (enhanceImageCanvas resample (enhanceImageCanvas resample img).surface).surface.width =
      2 * (enhanceImageCanvas resample img).surface.width ∧
    (enhanceImageCanvas resample (enhanceImageCanvas resample img).surface).surface.height =
      2 * (enhanceImageCanvas resample img).surface.height ∧
    ∀ c : Nat, c < 255 → c < enhanceChannel c := by
  refine ⟨?_, by simp [enhanceImageCanvas, Nat.mul_comm], by simp [enhanceImageCanvas, Nat.mul_comm], brighten_aux⟩
  intro hEq
  have hwidth := congrArg RasterSurface.width hEq
  simp only [enhanceImageCanvas] at hwidth
  omega

/-- Witness for C7 at a concrete 1 by 1 surface. -/
theorem transform_not_idempotent_witness :
    (enhanceImageCanvas (fun _ _ _ => []) (enhanceImageCanvas (fun _ _ _ => [])
        ⟨1, 1, [0, 0, 0, 255]⟩).surface).surface ≠
      (enhanceImageCanvas (fun _ _ _ => []) ⟨1, 1, [0, 0, 0, 255]⟩).surface ∧
    (enhanceImageCanvas (fun _ _ _ => []) (enhanceImageCanvas (fun _ _ _ => [])
        ⟨1, 1, [0, 0, 0, 255]⟩).surface).surface.width =
      2 * (enhanceImageCanvas (fun _ _ _ => []) ⟨1, 1, [0, 0, 0, 255]⟩).surface.width ∧
    (enhanceImageCanvas (fun _ _ _ => []) (enhanceImageCanvas (fun _ _ _ => [])
        ⟨1, 1, [0, 0, 0, 255]⟩).surface).surface.height =
      2 * (enhanceImageCanvas (fun _ _ _ => []) ⟨1, 1, [0, 0, 0, 255]⟩).surface.height ∧
    ∀ c : Nat, c < 255 → c < enhanceChannel c :=
  transform_not_idempotent (fun _ _ _ => []) ⟨1, 1, [0, 0, 0, 255]⟩ (by decide) (by decide)

/-- C8: a non-image upload is rejected as InvalidInput before any decode, a
failing load signal is surfaced as DecodeError, and in either case the result
does not depend on the resample or decode stages, so no raster surface reaches
the transform or encode stages. -/
theorem failure_before_raster_allocation (decode : List Char → Option RasterSurface)
    (resample : RasterSurface → Nat → Nat → List Nat)
    (decodeJpeg : EncodedImage → RasterSurface) (fileType fileData : List Char)
    (hfail : ("image/".toList).isPrefixOf fileType = false ∨ decode fileData = none) :
    (runEnhance decode resample decodeJpeg fileType fileData =
        Except.error EnhanceError.invalidInput ∨
      runEnhance decode resample decodeJpeg fileType fileData =
        Except.error EnhanceError.decodeError) ∧
    (("image/".toList).isPrefixOf fileType = false →
      runEnhance decode resample decodeJpeg fileType fileData =
        Except.error EnhanceError.invalidInput) ∧
    (("image/".toList).isPrefixOf fileType = true → decode fileData = none →
      runEnhance decode resample decodeJpeg fileType fileData =
        Except.error EnhanceError.decodeError) ∧
    ∀ resample2 decodeJpeg2,
      runEnhance decode resample2 decodeJpeg2 fileType fileData =
        runEnhance decode resample decodeJpeg fileType fileData := by
  rcases hfail with hft | hdec
  · refine ⟨Or.inl ?_, fun _ => ?_, fun htrue _ => ?_, fun r2 d2 => ?_⟩ <;>
      simp_all [runEnhance, handleFile]
  · by_cases hft : ("image/".toList).isPrefixOf fileType = true
    · refine ⟨Or.inr ?_, fun hfalse => ?_, fun _ _ => ?_, fun r2 d2 => ?_⟩ <;>
        simp_all [runEnhance, handleFile]
    · refine ⟨Or.inl ?_, fun _ => ?_, fun htrue _ => ?_, fun r2 d2 => ?_⟩ <;>
        simp_all [runEnhance, handleFile]

/-- Witness for C8 on a text file and on a failing load signal. -/
theorem failure_before_raster_allocation_witness :
    (runEnhance (fun _ => none) (fun _ _ _ => []) (fun e => e.surface)
        ("text/plain".toList) ("x".toList) =
        Except.error EnhanceError.invalidInput ∨
      runEnhance (fun _ => none) (fun _ _ _ => []) (fun e => e.surface)
        ("text/plain".toList) ("x".toList) =
        Except.error EnhanceError.decodeError) ∧
    (("image/".toList).isPrefixOf ("text/plain".toList) = false →
      runEnhance (fun _ => none) (fun _ _ _ => []) (fun e => e.surface)
        ("text/plain".toList) ("x".toList) =
        Except.error EnhanceError.invalidInput) ∧
    (("image/".toList).isPrefixOf ("text/plain".toList) = true →
      (fun _ : List Char => (none : Option RasterSurface)) ("x".toList) = none →
      runEnhance (fun _ => none) (fun _ _ _ => []) (fun e => e.surface)
        ("text/plain".toList) ("x".toList) =
        Except.error EnhanceError.decodeError) ∧
    ∀ resample2 decodeJpeg2,
      runEnhance (fun _ => none) resample2 decodeJpeg2
          ("text/plain".toList) ("x".toList) =
        runEnhance (fun _ => none) (fun _ _ _ => []) (fun e => e.surface)
          ("text/plain".toList) ("x".toList) :=
  failure_before_raster_allocation (fun _ => none) (fun _ _ _ => [])
    (fun e => e.surface) ("text/plain".toList) ("x".toList) (Or.inl (by decide))

/-- Scaling a dimension to the bound against itself yields exactly the bound:
round(w * 1024 / w) = 1024 for positive w. -/
theorem jsRound_eq_max (w : Nat) (hw : 0 < w) : jsRound (w * 1024) w = 1024 := by
  unfold jsRound
  have h1 : 2 * (w * 1024) + w = w + 2 * w * 1024 := by ring
  rw [h1, Nat.add_mul_div_left _ _ (by omega), Nat.div_eq_of_lt (by omega)]

/-- C4: on oversized input the resizer maps the larger dimension to exactly
1024 and rounds the other proportionally, re-encoding as jpeg at quality 0.9;
in particular 2000 by 1000 resizes to 1024 by 512 and the final output of the
pipeline is 2048 by 1024. -/
theorem resizer_oversized_dims (resample : RasterSurface → Nat → Nat → List Nat)
    (decodeJpeg : EncodedImage → RasterSurface) (w h : Nat) (img : RasterSurface)
    (hover : 1024 < max w h)
    (hdec : ∀ e, (decodeJpeg e).width = e.surface.width ∧
      (decodeJpeg e).height = e.surface.height)
    (himg : img.width = 2000 ∧ img.height = 1000) :
    (h ≤ w → resizeDims w h 1024 = (1024, jsRound (h * 1024) w)) ∧
    (w ≤ h → resizeDims w h 1024 = (jsRound (w * 1024) h, 1024)) ∧
    (∀ s, (resizeImageIfNeeded resample s 1024).format = ImageFormat.jpeg ∧
      (resizeImageIfNeeded resample s 1024).quality = 9 / 10) ∧
    resizeDims 2000 1000 1024 = (1024, 512) ∧
    (enhanceImage resample decodeJpeg img).surface.width = 2048 ∧
    (enhanceImage resample decodeJpeg img).surface.height = 1024 := by
  obtain ⟨hW, hH⟩ := himg
  have hcond := lt_max_iff.mp hover
  have hcond2 : img.width > 1024 ∨ img.height > 1024 := by omega
  have hkey : processedSurface resample decodeJpeg img =
      decodeJpeg (resizeImageIfNeeded resample img 1024) := by
    simp [processedSurface, hcond2]
  refine ⟨?_, ?_, fun s => ⟨rfl, rfl⟩, by decide, ?_, ?_⟩
  · intro hle
    unfold resizeDims
    rw [if_pos hcond]
    by_cases hwh : w > h
    · rw [if_pos hwh]
    · rw [if_neg hwh]
      have heq : w = h := le_antisymm (not_lt.mp hwh) hle
      subst heq
      rw [jsRound_eq_max w (by omega)]
  · intro hle
    unfold resizeDims
    rw [if_pos hcond]
    by_cases hwh : w > h
    · omega
    · rw [if_neg hwh]
  · show (enhanceImageCanvas resample (processedSurface resample decodeJpeg img)).surface.width = 2048
    rw [hkey]
    simp only [enhanceImageCanvas]
    rw [(hdec _).1]
    simp only [resizeImageIfNeeded, hW, hH]
    decide
  · show (enhanceImageCanvas resample (processedSurface resample decodeJpeg img)).surface.height = 1024
    rw [hkey]
    simp only [enhanceImageCanvas]
    rw [(hdec _).2]
    simp only [resizeImageIfNeeded, hW, hH]
    decide

/-- Witness for C4 at a concrete 2000 by 1000 surface. -/
theorem resizer_oversized_dims_witness :
    1024 < max 2000 1000 ∧
    ((1000 ≤ 2000 → resizeDims 2000 1000 1024 = (1024, jsRound (1000 * 1024) 2000)) ∧
    (2000 ≤ 1000 → resizeDims 2000 1000 1024 = (jsRound (2000 * 1024) 1000, 1024)) ∧
    (∀ s, (resizeImageIfNeeded (fun _ _ _ => []) s 1024).format = ImageFormat.jpeg ∧
      (resizeImageIfNeeded (fun _ _ _ => []) s 1024).quality = 9 / 10) ∧
    resizeDims 2000 1000 1024 = (1024, 512) ∧
    (enhanceImage (fun _ _ _ => []) (fun e => e.surface)
      ⟨2000, 1000, []⟩).surface.width = 2048 ∧
    (enhanceImage (fun _ _ _ => []) (fun e => e.surface)
      ⟨2000, 1000, []⟩).surface.height = 1024) :=
  ⟨by decide, resizer_oversized_dims (fun _ _ _ => []) (fun e => e.surface) 2000 1000
    ⟨2000, 1000, []⟩ (by decide) (fun e => ⟨rfl, rfl⟩) ⟨rfl, rfl⟩⟩

/-- C5 counterexample: a positive 4000 by 1 input is oversized, yet the
computed target height is Math.round(1 * 1024 / 4000) = 0, so the target
dimensions are not always positive. -/
theorem resizer_zero_dimension_counterexample :
    (0 : Nat) < 4000 ∧ (0 : Nat) < 1 ∧ 1024 < max 4000 1 ∧
    resizeDims 4000 1 1024 = (1024, 0) := by decide

/-- C5 amended: for positive dimensions the computed target dimensions are
positive provided the aspect ratio is at most 2048, the exact threshold at
which the proportional rounding reaches zero. -/
theorem resizer_dims_positive_bounded_aspect (w h : Nat) (hw : 0 < w) (hh : 0 < h)
    (haspect : max w h ≤ 2048 * min w h) :
    0 < (resizeDims w h 1024).1 ∧ 0 < (resizeDims w h 1024).2 := by
  by_cases hover : w > 1024 ∨ h > 1024
  · by_cases hwh : w > h
    · have hres : resizeDims w h 1024 = (1024, jsRound (h * 1024) w) := by
        unfold resizeDims
        rw [if_pos hover, if_pos hwh]
      rw [hres]
      have hb : max w h = w := max_eq_left (le_of_lt hwh)
      have hs : min w h = h := min_eq_right (le_of_lt hwh)
      rw [hb, hs] at haspect
      refine ⟨by omega, ?_⟩
      show 0 < (2 * (h * 1024) + w) / (2 * w)
      exact Nat.div_pos (by omega) (by omega)
    · have hres : resizeDims w h 1024 = (jsRound (w * 1024) h, 1024) := by
        unfold resizeDims
        rw [if_pos hover, if_neg hwh]
      rw [hres]
      have hb : max w h = h := max_eq_right (not_lt.mp hwh)
      have hs : min w h = w := min_eq_left (not_lt.mp hwh)
      rw [hb, hs] at haspect
      refine ⟨?_, by omega⟩
      show 0 < (2 * (w * 1024) + h) / (2 * h)
      exact Nat.div_pos (by omega) (by omega)
  · have hres : resizeDims w h 1024 = (w, h) := by
      unfold resizeDims
      rw [if_neg hover]
    rw [hres]
    exact ⟨hw, hh⟩

/-- Witness for the amended C5 at a concrete 4000 by 2 surface. -/
theorem resizer_dims_positive_bounded_aspect_witness :
    (0 : Nat) < 4000 ∧ (0 : Nat) < 2 ∧ max 4000 2 ≤ 2048 * min 4000 2 ∧
    (0 < (resizeDims 4000 2 1024).1 ∧ 0 < (resizeDims 4000 2 1024).2) :=
  ⟨by decide, by decide, by decide,
    resizer_dims_positive_bounded_aspect 4000 2 (by decide) (by decide) (by decide)⟩

set_option maxRecDepth 1000000 in
/-- On every 8-bit channel value whose exact scaled product is not a
half-integer, the loop output agrees with the claimed rounded affine formula,
and on every value the output lies between the floored and the ceiled
variants of that formula. -/
theorem affine_clamp_aux : ∀ c : Nat, c < 256 →
    ((11 * c) % 10 ≠ 5 → enhanceChannel c = claimedChannel RoundMode.halfUp c ∧
      enhanceChannel c = claimedChannel RoundMode.halfEven c) ∧
    claimedChannel RoundMode.down c ≤ enhanceChannel c ∧
    enhanceChannel c ≤ claimedChannel RoundMode.up c := by decide

/-- C2 counterexample: the loop output is 26 at input 15 (the claimed formula
with ties rounding up gives 27) but 115 at input 95 (the claimed formula with
ties rounding to even gives 114), so no single uniform rounding mode makes the
claimed formula clamp(round(c * 1.1) + 10, 0, 255) match the code on all
8-bit inputs. -/
theorem enhance_channel_no_single_rounding_mode :
    enhanceChannel 15 = 26 ∧ enhanceChannel 95 = 115 ∧
    claimedChannel RoundMode.halfUp 15 = 27 ∧
    claimedChannel RoundMode.halfEven 95 = 114 ∧
    ¬ ∃ m : RoundMode, ∀ c : Nat, c < 256 → enhanceChannel c = claimedChannel m c := by
  refine ⟨by decide, by decide, by decide, by decide, ?_⟩
  rintro ⟨m, hm⟩
  cases m with
  | halfUp => exact absurd (hm 15 (by decide)) (by decide)
  | halfDown => exact absurd (hm 5 (by decide)) (by decide)
  | halfEven => exact absurd (hm 95 (by decide)) (by decide)
  | halfOdd => exact absurd (hm 5 (by decide)) (by decide)
  | down => exact absurd (hm 5 (by decide)) (by decide)
  | up => exact absurd (hm 1 (by decide)) (by decide)

/-- C2 amended: each red, green and blue output channel follows the claimed
clamp(round(channel * 1.1) + 10, 0, 255) whenever channel * 1.1 is not a
half-integer, where all nearest rounding modes agree; on half-integer inputs
the output is the floored or the ceiled variant, with the direction set by the
binary64 evaluation rather than one uniform mode.  The map is applied to the
red, green and blue positions of each pixel. -/
theorem enhance_channel_affine_clamped (c : Nat) (hc : c < 256) :
    ((11 * c) % 10 ≠ 5 → enhanceChannel c = claimedChannel RoundMode.halfUp c ∧
      enhanceChannel c = claimedChannel RoundMode.halfEven c) ∧
    claimedChannel RoundMode.down c ≤ enhanceChannel c ∧
    enhanceChannel c ≤ claimedChannel RoundMode.up c ∧
    ∀ data : List Nat, ∀ i : Nat, i % 4 ≠ 3 →
      (enhanceData data)[i]? = (data[i]?).map enhanceChannel := by
  obtain ⟨h1, h2, h3⟩ := affine_clamp_aux c hc
  exact ⟨h1, h2, h3, fun data i hi => by rw [enhanceData_getElem, if_neg hi]⟩

/-- Witness for the amended C2 at channel value 7. -/
theorem enhance_channel_affine_clamped_witness :
    (7 : Nat) < 256 ∧
    (((11 * 7) % 10 ≠ 5 → enhanceChannel 7 = claimedChannel RoundMode.halfUp 7 ∧
      enhanceChannel 7 = claimedChannel RoundMode.halfEven 7) ∧
    claimedChannel RoundMode.down 7 ≤ enhanceChannel 7 ∧
    enhanceChannel 7 ≤ claimedChannel RoundMode.up 7 ∧
    ∀ data : List Nat, ∀ i : Nat, i % 4 ≠ 3 →
      (enhanceData data)[i]? = (data[i]?).map enhanceChannel) :=
  ⟨by decide, enhance_channel_affine_clamped 7 (by decide)⟩

/-- The per-pixel loop maps a buffer of identical pixels to a buffer of the
transformed pixel. -/
theorem enhanceData_replicate_pixel (n r g b a : Nat) :
    enhanceData ((List.replicate n [r, g, b, a]).flatten) =
      (List.replicate n
        [enhanceChannel r, enhanceChannel g, enhanceChannel b, a]).flatten := by
  induction n with
  | zero => simp [enhanceData]
  | succ k ih =>
      simp only [List.replicate_succ, List.flatten_cons, List.cons_append,
        List.nil_append]
      simp [enhanceData, ih]

/-- C9: a 500 by 300 uniformly opaque red input passes the resizer untouched
and produces a 1000 by 600 output in which every pixel is (255, 10, 10, 255),
serialized in the lossless png format at quality 1. -/
theorem red_scenario (resample : RasterSurface → Nat → Nat → List Nat)
    (decodeJpeg : EncodedImage → RasterSurface)
    (hres : resample ⟨500, 300, (List.replicate 150000 [255, 0, 0, 255]).flatten⟩ 1000 600 =
      (List.replicate 600000 [255, 0, 0, 255]).flatten) :
    enhanceImage resample decodeJpeg
        ⟨500, 300, (List.replicate 150000 [255, 0, 0, 255]).flatten⟩ =
      ⟨ImageFormat.png, 1, ⟨1000, 600,
        (List.replicate 600000 [255, 10, 10, 255]).flatten⟩⟩ := by
  have hsmall := processedSurface_small resample decodeJpeg
    ⟨500, 300, (List.replicate 150000 [255, 0, 0, 255]).flatten⟩ (by decide)
  rw [enhanceImage, hsmall]
  show (⟨ImageFormat.png, 1, ⟨1000, 600,
      enhanceData (resample ⟨500, 300, (List.replicate 150000 [255, 0, 0, 255]).flatten⟩
        1000 600)⟩⟩ : EncodedImage) = _
  rw [hres, enhanceData_replicate_pixel]
  have h255 : enhanceChannel 255 = 255 := by decide
  have h0 : enhanceChannel 0 = 10 := by decide
  rw [h255, h0]

/-- Witness for C9 with a constant-preserving resampler. -/
theorem red_scenario_witness :
    enhanceImage (fun _ _ _ => (List.replicate 600000 [255, 0, 0, 255]).flatten)
        (fun e => e.surface)
        ⟨500, 300, (List.replicate 150000 [255, 0, 0, 255]).flatten⟩ =
      ⟨ImageFormat.png, 1, ⟨1000, 600,
        (List.replicate 600000 [255, 10, 10, 255]).flatten⟩⟩ :=
  red_scenario (fun _ _ _ => (List.replicate 600000 [255, 0, 0, 255]).flatten)
    (fun e => e.surface) rfl

set_option maxRecDepth 1000000 in
/-- On every 8-bit channel the double evaluation stays at least 10 scaled
units, and the store with the full two-sided clamp agrees with the store of
the source. -/
theorem c10_aux : ∀ c : Nat, c < 256 →
    10 * scale ≤ minStep c ∧ enhanceChannelTwoSided c = enhanceChannel c := by decide

/-- C10: for every 8-bit channel value the exact affine value 1.1 c + 10 is at
least 10, so the lower bound of the two-sided clamp is never active, both on
the exact rationals and on the binary64 evaluation; consequently the one-sided
saturation Math.min(255, c * 1.1 + 10) of the source is extensionally equal to
the full two-sided clamp on the whole input domain. -/
theorem lower_clamp_never_active (c : Nat) (hc : c < 256) :
    (10 : ℚ) ≤ 11 * (c : ℚ) / 10 + 10 ∧
    max 0 (min 255 (11 * (c : ℚ) / 10 + 10)) = min 255 (11 * (c : ℚ) / 10 + 10) ∧
    10 * scale ≤ minStep c ∧
    enhanceChannelTwoSided c = enhanceChannel c := by
  refine ⟨?_, ?_, (c10_aux c hc).1, (c10_aux c hc).2⟩
  · have hpos : (0 : ℚ) ≤ 11 * (c : ℚ) / 10 := by positivity
    linarith
  · apply max_eq_right
    have hpos : (0 : ℚ) ≤ 11 * (c : ℚ) / 10 + 10 := by positivity
    exact le_min (by norm_num) hpos

/-- Witness for C10 at channel value 0. -/
theorem lower_clamp_never_active_witness :
    (0 : Nat) < 256 ∧
    ((10 : ℚ) ≤ 11 * ((0 : Nat) : ℚ) / 10 + 10 ∧
    max 0 (min 255 (11 * ((0 : Nat) : ℚ) / 10 + 10)) =
      min 255 (11 * ((0 : Nat) : ℚ) / 10 + 10) ∧
    10 * scale ≤ minStep 0 ∧
    enhanceChannelTwoSided 0 = enhanceChannel 0) :=
  ⟨by decide, lower_clamp_never_active 0 (by decide)⟩

end ImageRestoreLab
